import Mathlib

/-!
Verification of the IDS validation extension (trb-ids-validation).

This file shallowly embeds the pure computational core of the repository:

* the IDS validation engine of `src/services/idsValidator.ts`
  (`matchesConstraint`, `objectMatchesFacet`, `objectMatchesApplicability`,
  `checkRequirement`, `validateSpecification`, `validateIDS`),
* the CSV report serialisation of `src/services/exportCSV.ts`
  (`escapeCSV`, the line construction of `exportValidationCSV`),
* the class-name helpers and the statistics accumulation of
  `src/services/viewerBridge.ts` (`normalizeIfcClass`, `formatIfcClass`,
  the total-area / total-volume part of `computeModelStatistics`),
* the user-file loading of `src/services/idsLibrary.ts` (`loadIDSFromFile`).

Modelling conventions.  JavaScript strings are Lean `String`s; the
JavaScript basic-latin case mapping is `Char.toUpper` / `Char.toLower`
(the sources only rely on it for ASCII class names and property values).
The two JavaScript built-ins whose semantics live outside the repository
are parameterised as oracles (`Oracles`): `rx` models `new RegExp(p)`
(returning `none` when the pattern text is rejected, and otherwise the
compiled test function) and `pf` models `parseFloat` (returning `none`
for `NaN`).  Records are association lists looked up by key.  The
`async` delays of `validateIDS` are presentation-only; the embedding
returns, next to the results, the ordered list of arguments passed to
the progress callback.
-/

/-! ## JavaScript string primitives -/

/-- Model of `String.prototype.toUpperCase` (basic-latin case mapping). -/
def jsToUpper (s : String) : String := ⟨s.data.map Char.toUpper⟩

/-- Model of `String.prototype.toLowerCase` (basic-latin case mapping). -/
def jsToLower (s : String) : String := ⟨s.data.map Char.toLower⟩

/-- Core of `String.prototype.trim`: drop leading and trailing whitespace. -/
def trimList (l : List Char) : List Char :=
  ((l.dropWhile Char.isWhitespace).reverse.dropWhile Char.isWhitespace).reverse

/-- Model of `String.prototype.trim`. -/
def jsTrim (s : String) : String := ⟨trimList s.data⟩

/-- Model of `s.startsWith(p)`. -/
def jsStartsWith (s p : String) : Bool := p.data.isPrefixOf s.data

/-- Substring occurrence on character lists (for `String.prototype.includes`). -/
def containsSub (needle : List Char) : List Char → Bool
  | [] => needle.isPrefixOf []
  | c :: t => needle.isPrefixOf (c :: t) || containsSub needle t

/-- Model of `s.includes(sub)`. -/
def strIncludes (s sub : String) : Bool := containsSub sub.data s.data

/-- Model of `Array.prototype.join(sep)`. -/
def jsJoin (sep : String) : List String → String
  | [] => ""
  | [m] => m
  | m :: m2 :: rest => m ++ sep ++ jsJoin sep (m2 :: rest)

/-- Model of `Math.round`: round half-up towards positive infinity. -/
def jsRound (q : ℚ) : ℤ := ⌊q + 1 / 2⌋

/-! ## Character-level lemmas for the basic-latin case mapping -/

theorem char_toNat_ofNat_valid (n : Nat) (h : n.isValidChar) : (Char.ofNat n).toNat = n := by
  rw [Char.ofNat, dif_pos h]
  rfl

theorem char_toUpper_of_lower (c : Char) (h : 97 ≤ c.toNat ∧ c.toNat ≤ 122) :
    c.toUpper.toNat = c.toNat - 32 := by
  unfold Char.toUpper
  rw [if_pos ⟨h.1, h.2⟩]
  exact char_toNat_ofNat_valid _ (Or.inl (by omega))

theorem char_toUpper_of_not_lower (c : Char) (h : ¬(97 ≤ c.toNat ∧ c.toNat ≤ 122)) :
    c.toUpper = c := by
  unfold Char.toUpper
  rw [if_neg h]

theorem char_toUpper_idem (c : Char) : c.toUpper.toUpper = c.toUpper := by
  by_cases h : 97 ≤ c.toNat ∧ c.toNat ≤ 122
  · have h1 := char_toUpper_of_lower c h
    apply char_toUpper_of_not_lower
    omega
  · rw [char_toUpper_of_not_lower c h, char_toUpper_of_not_lower c h]

theorem char_eq_iff_toNat (c d : Char) : c = d ↔ c.toNat = d.toNat := by
  constructor
  · intro h; rw [h]
  · intro h
    apply Char.eq_of_val_eq
    exact UInt32.toNat.inj h

theorem char_isWhitespace_iff (c : Char) :
    c.isWhitespace = true ↔ (c.toNat = 32 ∨ c.toNat = 9 ∨ c.toNat = 13 ∨ c.toNat = 10) := by
  have hs : (' ' : Char).toNat = 32 := by decide
  have ht : ('\t' : Char).toNat = 9 := by decide
  have hr : ('\r' : Char).toNat = 13 := by decide
  have hn : ('\n' : Char).toNat = 10 := by decide
  unfold Char.isWhitespace
  simp only [Bool.or_eq_true, decide_eq_true_eq, char_eq_iff_toNat, hs, ht, hr, hn]
  tauto

theorem char_toUpper_whitespace (c : Char) : c.toUpper.isWhitespace = c.isWhitespace := by
  by_cases h : 97 ≤ c.toNat ∧ c.toNat ≤ 122
  · have h1 := char_toUpper_of_lower c h
    have e1 : c.toUpper.isWhitespace = false := by
      rw [Bool.eq_false_iff]
      intro hw
      rw [char_isWhitespace_iff] at hw
      omega
    have e2 : c.isWhitespace = false := by
      rw [Bool.eq_false_iff]
      intro hw
      rw [char_isWhitespace_iff] at hw
      omega
    rw [e1, e2]
  · rw [char_toUpper_of_not_lower c h]

/-! ## List and string support lemmas -/

theorem isPrefixOf_append_self (a b : List Char) : a.isPrefixOf (a ++ b) = true := by
  induction a with
  | nil => simp [List.isPrefixOf]
  | cons c cs ih => simp [List.isPrefixOf, ih]

theorem head?_dropWhile_false {p : α → Bool} {l : List α} {c : α}
    (h : (l.dropWhile p).head? = some c) : p c = false := by
  induction l with
  | nil => simp at h
  | cons a t ih =>
    rw [List.dropWhile_cons] at h
    by_cases hp : p a
    · rw [if_pos hp] at h
      exact ih h
    · rw [if_neg hp] at h
      simp only [List.head?_cons, Option.some.injEq] at h
      rw [← h]
      exact Bool.of_not_eq_true hp

theorem getLast?_of_sublist_last {l t : List α} {c : α}
    (hst : ∃ u, u ++ t = l) (h : t.getLast? = some c) : l.getLast? = some c := by
  obtain ⟨u, rfl⟩ := hst
  rw [List.getLast?_append]
  rw [h]
  rfl

theorem trimList_head {l : List Char} {c : Char} (h : (trimList l).head? = some c) :
    c.isWhitespace = false := by
  unfold trimList at h
  rw [List.head?_reverse] at h
  have hsuf : ∃ u, u ++ (l.dropWhile Char.isWhitespace).reverse.dropWhile Char.isWhitespace
      = (l.dropWhile Char.isWhitespace).reverse := by
    obtain ⟨u, hu⟩ := List.dropWhile_suffix (l := (l.dropWhile Char.isWhitespace).reverse)
      (p := Char.isWhitespace)
    exact ⟨u, hu⟩
  have h2 : ((l.dropWhile Char.isWhitespace).reverse).getLast? = some c :=
    getLast?_of_sublist_last hsuf h
  rw [List.getLast?_reverse] at h2
  exact head?_dropWhile_false h2

theorem trimList_getLast {l : List Char} {c : Char} (h : (trimList l).getLast? = some c) :
    c.isWhitespace = false := by
  unfold trimList at h
  rw [List.getLast?_reverse] at h
  exact head?_dropWhile_false h

theorem dropWhile_eq_self_of_head {p : α → Bool} {l : List α}
    (h : ∀ c, l.head? = some c → p c = false) : l.dropWhile p = l := by
  cases l with
  | nil => rfl
  | cons a t =>
    rw [List.dropWhile_cons, if_neg]
    rw [h a rfl]
    simp

theorem trimList_eq_self {l : List Char}
    (h1 : ∀ c, l.head? = some c → c.isWhitespace = false)
    (h2 : ∀ c, l.getLast? = some c → c.isWhitespace = false) : trimList l = l := by
  unfold trimList
  rw [dropWhile_eq_self_of_head h1]
  rw [dropWhile_eq_self_of_head (by simpa using h2)]
  exact List.reverse_reverse l

theorem string_eq_of_data {s t : String} (h : s.data = t.data) : s = t := by
  cases s
  cases t
  simp only at h
  rw [h]

/-! ## Data model (`src/types/index.ts`)

The TypeScript interfaces are mirrored field by field; optional fields
become `Option`s, the string-literal unions become inductives.  The only
renamings forced by Lean are the constructor for the `attribute` facet
kind (`attrib`, `attribute` being a Lean keyword) and the constructors
of the display operator union (`exists` being a Lean keyword). -/

/-- `IDSFacetType`: the union `entity | property | material | classification | attribute | partOf`. -/
inductive IDSFacetType where
  | entity
  | property
  | material
  | classification
  | attrib
  | partOf
deriving DecidableEq

/-- The tag of `IDSValueConstraint.type`: `simpleValue | restriction`. -/
inductive ConstraintKind where
  | simpleValue
  | restriction
deriving DecidableEq

/-- `IDSRestriction` (all fields optional in the TypeScript interface). -/
structure IDSRestriction where
  base : Option String := none
  enumeration : Option (List String) := none
  pattern : Option String := none
  minLength : Option ℚ := none
  maxLength : Option ℚ := none
  length : Option ℚ := none
  minInclusive : Option ℚ := none
  maxInclusive : Option ℚ := none
deriving DecidableEq

/-- `IDSValueConstraint` with its optional `value` and `restriction` fields. -/
structure IDSValueConstraint where
  type : ConstraintKind
  value : Option String := none
  restriction : Option IDSRestriction := none
deriving DecidableEq

/-- `maxOccurs` values: a number or the literal `"unbounded"`. -/
inductive MaxOccurs where
  | num (q : ℚ)
  | unbounded
deriving DecidableEq

/-- `IDSFacet`: one flat record with a kind tag, as in the TypeScript interface. -/
structure IDSFacet where
  type : IDSFacetType
  entityName : Option IDSValueConstraint := none
  predefinedType : Option IDSValueConstraint := none
  propertySet : Option IDSValueConstraint := none
  baseName : Option IDSValueConstraint := none
  dataType : Option String := none
  attributeName : Option IDSValueConstraint := none
  system : Option IDSValueConstraint := none
  relation : Option String := none
  value : Option IDSValueConstraint := none
  minOccurs : Option ℚ := none
  maxOccurs : Option MaxOccurs := none
  instructions : Option String := none
deriving DecidableEq

/-- The display operator union of `IDSRequirement.operator`
(`equals | contains | startsWith | regex | exists | restriction`). -/
inductive OperatorKind where
  | eqOp
  | containsOp
  | startsWithOp
  | regexOp
  | existsOp
  | restrictionOp
deriving DecidableEq

/-- `IDSRequirement`: the facet plus display-only projection fields. -/
structure IDSRequirement where
  id : String
  type : IDSFacetType
  facet : IDSFacet
  name : String := ""
  expectedValue : String := ""
  operator : OperatorKind := OperatorKind.existsOp
deriving DecidableEq

/-- `IDSSpecification`. -/
structure IDSSpecification where
  id : String
  name : String
  description : String := ""
  ifcVersion : Option String := none
  instructions : Option String := none
  applicability : List IDSFacet
  ifcEntity : String
  requirements : List IDSRequirement
  minOccurs : Option ℚ := none
  maxOccurs : Option MaxOccurs := none
deriving DecidableEq

/-- `IDSFile`. -/
structure IDSFile where
  id : String
  name : String
  version : String := ""
  author : String := ""
  date : String := ""
  objective : String := ""
  description : String := ""
  specifications : List IDSSpecification
  isBuiltIn : Bool
  copyright : Option String := none
  milestone : Option String := none
deriving DecidableEq

/-- A `{system, value}` classification pair of an `IFCObject`. -/
structure Classification where
  system : String
  value : String
deriving DecidableEq

/-- `IFCObject`; the two record fields are association lists. -/
structure IFCObject where
  id : String
  name : String
  ifcClass : String
  predefinedType : Option String := none
  attributes : List (String × String)
  properties : List (String × List (String × String))
  materials : List String
  classifications : List Classification
deriving DecidableEq

/-- The `'pass' | 'fail'` status union of a validation detail. -/
inductive Status where
  | pass
  | fail
deriving DecidableEq

/-- `IDSValidationDetail`. -/
structure IDSValidationDetail where
  objectId : String
  objectName : String
  status : Status
  message : String
deriving DecidableEq

/-- `IDSValidationResult`. -/
structure IDSValidationResult where
  specificationId : String
  specificationName : String
  ifcEntity : String
  totalChecked : ℕ
  passed : ℕ
  failed : ℕ
  details : List IDSValidationDetail
deriving DecidableEq

/-- The `{ pass, message }` record returned by `checkRequirement`. -/
structure CheckResult where
  pass : Bool
  message : String
deriving DecidableEq

/-- The two JavaScript built-ins used by the engine, as oracles:
`rx p` models `new RegExp(p)` (`none` when the pattern text is invalid,
otherwise the compiled `test` function) and `pf s` models `parseFloat(s)`
(`none` for `NaN`). -/
structure Oracles where
  rx : String → Option (String → Bool)
  pf : String → Option ℚ

/-- `PropertyStat` of the statistics dashboard. -/
structure PropertyStat where
  name : String
  value : String
  unit : Option String := none
  icon : Option String := none
deriving DecidableEq

/-! ## Small record-lookup helpers -/

/-- JavaScript record lookup `m[k]` on an association-list model. -/
def lookupStr (m : List (String × α)) (k : String) : Option α :=
  (m.find? (fun p => p.1 == k)).map (·.2)

/-- JavaScript truthiness of an optional string (`undefined` and `""` are falsy). -/
def optTruthy (x : Option String) : Bool := !(x.getD "" == "")

/-! ## Value constraint matching (`matchesConstraint`, idsValidator.ts 246-282) -/

/-- `matchesConstraint(constraint, actual)`.  The branch structure follows the
source line by line; JavaScript truthiness of `r.pattern` (an empty pattern
string is falsy) and of `r.enumeration` (any present array is truthy) is kept. -/
def matchesConstraint (o : Oracles) (constraint : Option IDSValueConstraint)
    (actual : Option String) : Bool :=
  match constraint with
  | none => true
  | some c =>
    if c.type = ConstraintKind.simpleValue then
      if optTruthy c.value = false then actual.isSome
      else (actual.map jsToUpper) == (c.value.map jsToUpper)
    else if c.type = ConstraintKind.restriction ∧ c.restriction.isSome then
      match c.restriction with
      | none => true
      | some r =>
        match actual with
        | none => false
        | some a =>
          if optTruthy r.pattern then
            let p := r.pattern.getD ""
            match o.rx p with
            | some test => test a
            | none => strIncludes a p
          else if r.enumeration.isSome then
            (r.enumeration.getD []).any (fun e => jsToUpper e == jsToUpper a)
          else if (match r.minLength with
              | some m => decide ((a.data.length : ℚ) < m)
              | none => false) then false
          else if (match r.maxLength with
              | some m => decide ((a.data.length : ℚ) > m)
              | none => false) then false
          else if (match r.length with
              | some m => decide (¬((a.data.length : ℚ) = m))
              | none => false) then false
          else
            match o.pf a with
            | some num =>
              if (match r.minInclusive with
                  | some m => decide (num < m)
                  | none => false) then false
              else if (match r.maxInclusive with
                  | some m => decide (num > m)
                  | none => false) then false
              else true
            | none => true
    else true

/-! ## Applicability (`objectMatchesFacet`, idsValidator.ts 286-328) -/

/-- `objectMatchesFacet(obj, facet)`. -/
def objectMatchesFacet (o : Oracles) (obj : IFCObject) (facet : IDSFacet) : Bool :=
  match facet.type with
  | IDSFacetType.entity =>
    if facet.entityName.isSome ∧
        matchesConstraint o facet.entityName (some obj.ifcClass) = false then false
    else if facet.predefinedType.isSome ∧
        matchesConstraint o facet.predefinedType obj.predefinedType = false then false
    else true
  | IDSFacetType.property =>
    match facet.propertySet.bind (·.value), facet.baseName.bind (·.value) with
    | some psName, some propName =>
      if psName = "" ∨ propName = "" then true
      else
        match (lookupStr obj.properties psName).bind (fun ps => lookupStr ps propName) with
        | none => false
        | some val =>
          if facet.value.isSome then matchesConstraint o facet.value (some val) else true
    | _, _ => true
  | IDSFacetType.attrib =>
    match facet.attributeName.bind (·.value) with
    | some attrName =>
      if attrName = "" then true
      else
        match lookupStr obj.attributes attrName with
        | none => false
        | some val =>
          if facet.value.isSome then matchesConstraint o facet.value (some val) else true
    | none => true
  | IDSFacetType.classification =>
    match facet.system.bind (·.value) with
    | some sysName =>
      if sysName = "" then decide (obj.classifications.length > 0)
      else
        obj.classifications.any (fun c =>
          jsToUpper c.system == jsToUpper sysName &&
          (!facet.value.isSome || matchesConstraint o facet.value (some c.value)))
    | none => decide (obj.classifications.length > 0)
  | IDSFacetType.material =>
    if facet.value.isSome then
      obj.materials.any (fun m => matchesConstraint o facet.value (some m))
    else decide (obj.materials.length > 0)
  | IDSFacetType.partOf => true

/-- `objectMatchesApplicability(obj, applicability)`: conjunctive over facets. -/
def objectMatchesApplicability (o : Oracles) (obj : IFCObject)
    (applicability : List IDSFacet) : Bool :=
  applicability.all (objectMatchesFacet o obj)

/-! ## Requirement checking (`checkRequirement`, idsValidator.ts 332-429) -/

/-- `constraintDisplayVal(c)` (idsValidator.ts 419-429). -/
def constraintDisplayVal (c : Option IDSValueConstraint) : String :=
  match c with
  | none => ""
  | some c =>
    if c.type = ConstraintKind.simpleValue then c.value.getD ""
    else
      match c.restriction with
      | some r =>
        if optTruthy r.pattern then "/" ++ r.pattern.getD "" ++ "/"
        else
          match r.enumeration with
          | some es => jsJoin " | " es
          | none => "(restriction)"
      | none => ""

/-- The inline pattern `c?.value ?? constraintDisplayVal(c)` used to resolve
the property-set, base-name, attribute and system names in `checkRequirement`. -/
def resolveName (c : Option IDSValueConstraint) : String :=
  match c.bind (·.value) with
  | some v => v
  | none => constraintDisplayVal c

/-- `checkRequirement(obj, req)`. -/
def checkRequirement (o : Oracles) (obj : IFCObject) (req : IDSRequirement) : CheckResult :=
  match req.facet.type with
  | IDSFacetType.property =>
    let psName := resolveName req.facet.propertySet
    let propName := resolveName req.facet.baseName
    if psName = "" ∨ propName = "" then
      { pass := true, message := "OK" }
    else
      match (lookupStr obj.properties psName).bind (fun ps => lookupStr ps propName) with
      | none =>
        let mustExist := match req.facet.minOccurs with
          | some q => decide (q > 0)
          | none => true
        if mustExist then
          { pass := false, message := "Propriété '" ++ psName ++ "." ++ propName ++ "' manquante" }
        else
          { pass := true, message := "OK (optionnel)" }
      | some actual =>
        if req.facet.value.isSome ∧ matchesConstraint o req.facet.value (some actual) = false then
          { pass := false, message := "'" ++ psName ++ "." ++ propName ++ "' = '" ++ actual
              ++ "' — attendu : " ++ constraintDisplayVal req.facet.value }
        else
          { pass := true, message := "OK" }
  | IDSFacetType.attrib =>
    let attrName := resolveName req.facet.attributeName
    if attrName = "" then { pass := true, message := "OK" }
    else
      match lookupStr obj.attributes attrName with
      | none => { pass := false, message := "Attribut '" ++ attrName ++ "' manquant" }
      | some actual =>
        if req.facet.value.isSome ∧ matchesConstraint o req.facet.value (some actual) = false then
          { pass := false, message := "'" ++ attrName ++ "' = '" ++ actual
              ++ "' — attendu : " ++ constraintDisplayVal req.facet.value }
        else
          { pass := true, message := "OK" }
  | IDSFacetType.classification =>
    let sysName := resolveName req.facet.system
    if sysName = "" then
      if obj.classifications.length = 0 then
        { pass := false, message := "Aucune classification assignée" }
      else
        { pass := true, message := "OK" }
    else
      match obj.classifications.find? (fun c => jsToUpper c.system == jsToUpper sysName) with
      | none => { pass := false, message := "Classification '" ++ sysName ++ "' manquante" }
      | some cl =>
        if req.facet.value.isSome ∧ matchesConstraint o req.facet.value (some cl.value) = false then
          { pass := false, message := "Classification '" ++ sysName ++ "' = '" ++ cl.value
              ++ "' — attendu : " ++ constraintDisplayVal req.facet.value }
        else
          { pass := true, message := "OK" }
  | IDSFacetType.material =>
    if obj.materials.length = 0 then
      let mustExist := match req.facet.minOccurs with
        | some q => decide (q > 0)
        | none => true
      if mustExist then
        { pass := false, message := "Aucun matériau assigné" }
      else
        { pass := true, message := "OK (optionnel)" }
    else
      if req.facet.value.isSome then
        let anyMatch := obj.materials.any (fun m => matchesConstraint o req.facet.value (some m))
        if anyMatch = false then
          { pass := false, message := "Matériau '" ++ jsJoin ", " obj.materials
              ++ "' ne correspond pas à '" ++ constraintDisplayVal req.facet.value ++ "'" }
        else
          { pass := true, message := "OK" }
      else
        { pass := true, message := "OK" }
  | _ => { pass := true, message := "OK" }

/-! ## Per-specification validation (`validateSpecification`, idsValidator.ts 460-493) -/

/-- The inner requirement loop of `validateSpecification`: the running
`allPass` conjunction together with the in-order failing messages. -/
def collectReqResults (o : Oracles) (obj : IFCObject) :
    List IDSRequirement → Bool × List String
  | [] => (true, [])
  | req :: rest =>
    let r := checkRequirement o obj req
    let acc := collectReqResults o obj rest
    (r.pass && acc.1, if r.pass then acc.2 else r.message :: acc.2)

/-- `validateSpecification(spec, objects)`. -/
def validateSpecification (o : Oracles) (spec : IDSSpecification)
    (objects : List IFCObject) : IDSValidationResult :=
  let applicable := objects.filter (fun obj => objectMatchesApplicability o obj spec.applicability)
  let details := applicable.map (fun obj =>
    let acc := collectReqResults o obj spec.requirements
    { objectId := obj.id
      objectName := obj.name
      status := if acc.1 then Status.pass else Status.fail
      message := if acc.1 then "OK" else jsJoin " ; " acc.2 : IDSValidationDetail })
  { specificationId := spec.id
    specificationName := spec.name
    ifcEntity := spec.ifcEntity
    totalChecked := details.length
    passed := (details.filter (fun d => d.status == Status.pass)).length
    failed := (details.filter (fun d => d.status == Status.fail)).length
    details := details }

/-! ## Top-level run (`validateIDS`, idsValidator.ts 438-458)

The `await` delay between specifications is presentation-only; the
embedding returns the list of results together with the ordered list of
percentages handed to the `onProgress` callback. -/

/-- The specification loop of `validateIDS`: `si` is the loop index and
`total` the specification count of the file. -/
def validateIDSGo (o : Oracles) (objects : List IFCObject) (total : ℕ) :
    List IDSSpecification → ℕ → List IDSValidationResult × List ℤ
  | [], _ => ([], [])
  | spec :: rest, si =>
    let result := validateSpecification o spec objects
    let pct := jsRound ((((si : ℚ) + 1) / (total : ℚ)) * 100)
    let acc := validateIDSGo o objects total rest (si + 1)
    (result :: acc.1, pct :: acc.2)

/-- `validateIDS(idsFile, { objects, onProgress })`, with the object list
supplied explicitly (the source defaults it to the mock catalog). -/
def validateIDS (o : Oracles) (idsFile : IDSFile) (objects : List IFCObject) :
    List IDSValidationResult × List ℤ :=
  validateIDSGo o objects idsFile.specifications.length idsFile.specifications 0

/-! ## CSV export (`exportValidationCSV`, exportCSV.ts 10-82)

Only the pure text construction is embedded; the `Blob` download is
browser machinery.  The two `new Date().toISOString().slice(0, 10)`
occurrences are passed in as the `today` parameter. -/

/-- `val.replace(/"/g, '""')`. -/
def escapeQuotesCSV (val : String) : String :=
  ⟨val.data.flatMap (fun ch => if ch = '"' then ['"', '"'] else [ch])⟩

/-- `escapeCSV(val)` (exportCSV.ts 3-8). -/
def escapeCSV (val : String) : String :=
  if strIncludes val "," || strIncludes val "\"" || strIncludes val "\n" then
    "\"" ++ escapeQuotesCSV val ++ "\""
  else val

/-- Sum of the `totalChecked` fields (`results.reduce((s, r) => s + r.totalChecked, 0)`). -/
def sumTotalChecked (results : List IDSValidationResult) : ℕ :=
  results.foldl (fun s r => s + r.totalChecked) 0

/-- Sum of the `passed` fields. -/
def sumPassed (results : List IDSValidationResult) : ℕ :=
  results.foldl (fun s r => s + r.passed) 0

/-- Sum of the `failed` fields. -/
def sumFailed (results : List IDSValidationResult) : ℕ :=
  results.foldl (fun s r => s + r.failed) 0

/-- The detail-table rows contributed by one result (exportCSV.ts 47-69). -/
def csvDetailRows (result : IDSValidationResult) : List String :=
  if result.details.length = 0 then
    [jsJoin ";" ([result.specificationName, result.ifcEntity, "", "", "N/A",
      "Aucun objet trouvé pour cette spécification"].map escapeCSV)]
  else
    result.details.map (fun d =>
      jsJoin ";" ([result.specificationName, result.ifcEntity, d.objectId, d.objectName,
        (if d.status = Status.pass then "Conforme" else "Non conforme"),
        d.message].map escapeCSV))

/-- The ordered lines of the CSV report built by `exportValidationCSV`. -/
def exportValidationCSVLines (results : List IDSValidationResult) (idsFile : IDSFile)
    (today : String) : List String :=
  let totalChecked := sumTotalChecked results
  let totalPassed := sumPassed results
  let totalFailed := sumFailed results
  let passRate : ℤ :=
    if totalChecked > 0 then jsRound (((totalPassed : ℚ) / (totalChecked : ℚ)) * 100) else 0
  ["Rapport de validation IDS",
   "Fichier IDS;" ++ escapeCSV idsFile.name,
   "Version;" ++ escapeCSV idsFile.version,
   "Auteur;" ++ escapeCSV idsFile.author,
   "Date du fichier;" ++ escapeCSV idsFile.date,
   "Date du rapport;" ++ today,
   "",
   "Résumé",
   "Total vérifié;" ++ toString totalChecked,
   "Conformes;" ++ toString totalPassed,
   "Non conformes;" ++ toString totalFailed,
   "Taux de conformité;" ++ toString passRate ++ "%",
   "",
   jsJoin ";" (["Spécification", "Entité IFC", "Objet ID", "Objet Nom", "Statut",
     "Message"].map escapeCSV)]
  ++ results.flatMap csvDetailRows

/-! ## Class-name helpers (`viewerBridge.ts` 40-51) -/

/-- `normalizeIfcClass(raw)`. -/
def normalizeIfcClass (raw : String) : String :=
  let cls := jsToUpper (jsTrim raw)
  if cls = "" then ""
  else if jsStartsWith cls "IFC" = false then "IFC" ++ cls
  else cls

/-- `body.charAt(0).toUpperCase() + body.slice(1)`. -/
def capFirst (s : String) : String :=
  match s.data with
  | [] => ""
  | c :: rest => ⟨c.toUpper :: rest⟩

/-- `formatIfcClass(upper)`. -/
def formatIfcClass (upper : String) : String :=
  if upper = "" ∨ jsStartsWith upper "IFC" = false then upper
  else
    let body := jsToLower ⟨upper.data.drop 3⟩
    "Ifc" ++ capFirst body

/-! ## Statistics accumulation (`computeModelStatistics`, viewerBridge.ts 669-729)

Only the total-area / total-volume accumulation and the two property
statistics built from it are embedded; the remaining counters do not
enter any claim. -/

/-- The running `totalArea` / `totalVolume` accumulation over every numeric
property value whose lower-cased key contains `area`/`surface` resp. `volume`. -/
def accumTotals (o : Oracles) (objects : List IFCObject) : ℚ × ℚ :=
  objects.foldl (fun acc obj =>
    obj.properties.foldl (fun acc2 pset =>
      pset.2.foldl (fun acc3 kv =>
        let kl := jsToLower kv.1
        match o.pf kv.2 with
        | none => acc3
        | some num =>
          (if strIncludes kl "area" || strIncludes kl "surface" then acc3.1 + num else acc3.1,
           if strIncludes kl "volume" then acc3.2 + num else acc3.2)) acc2) acc) (0, 0)

/-- The `propertyStats` entries of `computeModelStatistics` (viewerBridge.ts 726-729). -/
def areaVolumeStats (o : Oracles) (objects : List IFCObject) : List PropertyStat :=
  let totalArea := (accumTotals o objects).1
  let totalVolume := (accumTotals o objects).2
  [{ name := "Surface totale",
     value := (if totalArea > 0 then toString (jsRound totalArea) else "—") ++ " m²",
     icon := some "area" },
   { name := "Volume total",
     value := (if totalVolume > 0 then toString (jsRound totalVolume) else "—") ++ " m³",
     icon := some "volume" }]

/-! ## User-file loading (`loadIDSFromFile`, idsLibrary.ts)

The XML parsing itself (`parseIDSFromXML`) is DOM machinery; the
embedding takes the parsed `IDSFile` (the parser is invoked with
`isBuiltIn = false`, so the parsed record carries `isBuiltIn := false`)
and applies the title fix-up of `loadIDSFromFile`. -/

/-- `fileName.replace(/\.ids$/i, '')`: strip one case-insensitive `.ids` suffix. -/
def stripIdsSuffix (fileName : String) : String :=
  let n := fileName.data.length
  if 4 ≤ n ∧ jsToLower ⟨fileName.data.drop (n - 4)⟩ = ".ids" then
    ⟨fileName.data.take (n - 4)⟩
  else fileName

/-- The title fix-up of `loadIDSFromFile(file)` applied to the parse result. -/
def loadIDSFromFile (parsed : IDSFile) (fileName : String) : IDSFile :=
  if parsed.name = "" ∨ parsed.name = "Sans titre" then
    { parsed with name := stripIdsSuffix fileName }
  else parsed

/-! ## Support lemmas about `normalizeIfcClass` -/

theorem map_toUpper_idem (l : List Char) :
    (l.map Char.toUpper).map Char.toUpper = l.map Char.toUpper := by
  rw [List.map_map]
  apply List.map_congr_left
  intro c _
  exact char_toUpper_idem c

theorem jsToUpper_idem (s : String) : jsToUpper (jsToUpper s) = jsToUpper s := by
  apply string_eq_of_data
  exact map_toUpper_idem s.data

theorem string_data_ne_nil {s : String} (h : s ≠ "") : s.data ≠ [] := by
  intro hd
  apply h
  apply string_eq_of_data
  rw [hd]

theorem upTrim_head_not_ws (raw : String) (c : Char)
    (h : (jsToUpper (jsTrim raw)).data.head? = some c) : c.isWhitespace = false := by
  have h' : ((trimList raw.data).map Char.toUpper).head? = some c := h
  rw [List.head?_map] at h'
  cases hh : (trimList raw.data).head? with
  | none => rw [hh] at h'; simp at h'
  | some c0 =>
    rw [hh] at h'
    simp only [Option.map_some', Option.some.injEq] at h'
    rw [← h', char_toUpper_whitespace]
    exact trimList_head hh

theorem upTrim_getLast_not_ws (raw : String) (c : Char)
    (h : (jsToUpper (jsTrim raw)).data.getLast? = some c) : c.isWhitespace = false := by
  have h' : ((trimList raw.data).map Char.toUpper).getLast? = some c := h
  rw [List.getLast?_map] at h'
  cases hh : (trimList raw.data).getLast? with
  | none => rw [hh] at h'; simp at h'
  | some c0 =>
    rw [hh] at h'
    simp only [Option.map_some', Option.some.injEq] at h'
    rw [← h', char_toUpper_whitespace]
    exact trimList_getLast hh

theorem jsTrim_eq_self_of_ends (s : String)
    (h1 : ∀ c, s.data.head? = some c → c.isWhitespace = false)
    (h2 : ∀ c, s.data.getLast? = some c → c.isWhitespace = false) : jsTrim s = s := by
  apply string_eq_of_data
  exact trimList_eq_self h1 h2

/-- The output of `normalizeIfcClass` is a fixed point of trimming,
upper-casing and the `IFC`-prefix test (unless it is empty). -/
theorem normalizeIfcClass_canon (raw : String) (h : normalizeIfcClass raw ≠ "") :
    jsTrim (normalizeIfcClass raw) = normalizeIfcClass raw ∧
    jsToUpper (normalizeIfcClass raw) = normalizeIfcClass raw ∧
    jsStartsWith (normalizeIfcClass raw) "IFC" = true := by
  by_cases hcls : jsToUpper (jsTrim raw) = ""
  · exfalso
    apply h
    unfold normalizeIfcClass
    rw [if_pos hcls]
  · have htrim : jsTrim (jsToUpper (jsTrim raw)) = jsToUpper (jsTrim raw) :=
      jsTrim_eq_self_of_ends _ (upTrim_head_not_ws raw) (upTrim_getLast_not_ws raw)
    have hup : jsToUpper (jsToUpper (jsTrim raw)) = jsToUpper (jsTrim raw) := jsToUpper_idem _
    by_cases hpre : jsStartsWith (jsToUpper (jsTrim raw)) "IFC" = false
    · have hres : normalizeIfcClass raw = "IFC" ++ jsToUpper (jsTrim raw) := by
        unfold normalizeIfcClass
        rw [if_neg hcls, if_pos hpre]
      rw [hres]
      have hdata : ("IFC" ++ jsToUpper (jsTrim raw)).data
          = "IFC".data ++ (jsToUpper (jsTrim raw)).data := String.data_append _ _
      refine ⟨?_, ?_, ?_⟩
      · apply jsTrim_eq_self_of_ends
        · intro c hc
          rw [hdata] at hc
          simp only [List.cons_append, List.head?_cons, Option.some.injEq,
            show "IFC".data = ['I', 'F', 'C'] from rfl] at hc
          rw [← hc]
          decide
        · intro c hc
          rw [hdata, List.getLast?_append] at hc
          cases hlast : (jsToUpper (jsTrim raw)).data.getLast? with
          | none =>
            exfalso
            rw [List.getLast?_eq_none_iff] at hlast
            exact string_data_ne_nil hcls hlast
          | some c0 =>
            rw [hlast] at hc
            simp only [Option.or_some, Option.some.injEq] at hc
            rw [← hc]
            exact upTrim_getLast_not_ws raw c0 hlast
      · apply string_eq_of_data
        rw [hdata]
        show ("IFC".data ++ (jsToUpper (jsTrim raw)).data).map Char.toUpper = _
        rw [List.map_append]
        have e1 : "IFC".data.map Char.toUpper = "IFC".data := by decide
        have e2 : (jsToUpper (jsTrim raw)).data.map Char.toUpper
            = (jsToUpper (jsTrim raw)).data := map_toUpper_idem (trimList raw.data)
        rw [e1, e2]
      · show "IFC".data.isPrefixOf ("IFC" ++ jsToUpper (jsTrim raw)).data = true
        rw [hdata]
        exact isPrefixOf_append_self _ _
    · have hpre' : jsStartsWith (jsToUpper (jsTrim raw)) "IFC" = true := by
        cases hb : jsStartsWith (jsToUpper (jsTrim raw)) "IFC"
        · exact absurd hb hpre
        · rfl
      have hres : normalizeIfcClass raw = jsToUpper (jsTrim raw) := by
        unfold normalizeIfcClass
        rw [if_neg hcls, if_neg (by rw [hpre']; simp)]
      rw [hres]
      exact ⟨htrim, hup, hpre'⟩

theorem normalizeIfcClass_of_canon (s : String) (hne : s ≠ "")
    (h1 : jsTrim s = s) (h2 : jsToUpper s = s) (h3 : jsStartsWith s "IFC" = true) :
    normalizeIfcClass s = s := by
  unfold normalizeIfcClass
  rw [h1, h2, if_neg hne, h3]
  simp

/-! ## Claim C9 -/

/-- C9: `normalizeIfcClass` is idempotent, its result is always either the
empty string or a string beginning with `IFC`, and on the concrete inputs
`wall`, `IfcWall` and the empty string it returns `IFCWALL`, `IFCWALL`
and the empty string respectively. -/
theorem normalizeIfcClass_idempotent_and_shape :
    (∀ x : String, normalizeIfcClass (normalizeIfcClass x) = normalizeIfcClass x) ∧
    (∀ x : String, normalizeIfcClass x = "" ∨ jsStartsWith (normalizeIfcClass x) "IFC" = true) ∧
    normalizeIfcClass "wall" = "IFCWALL" ∧
    normalizeIfcClass "IfcWall" = "IFCWALL" ∧
    normalizeIfcClass "" = "" := by
  have hid : ∀ x : String, normalizeIfcClass (normalizeIfcClass x) = normalizeIfcClass x := by
    intro x
    by_cases h : normalizeIfcClass x = ""
    · rw [h]
      decide
    · obtain ⟨h1, h2, h3⟩ := normalizeIfcClass_canon x h
      exact normalizeIfcClass_of_canon _ h h1 h2 h3
  refine ⟨hid, ?_, by decide, by decide, by decide⟩
  intro x
  by_cases h : normalizeIfcClass x = ""
  · exact Or.inl h
  · exact Or.inr (normalizeIfcClass_canon x h).2.2

/-! ## Claim C6 -/

/-- C6 counterexample: the claim states that `formatIfcClass (normalizeIfcClass "wall")`
is `Ifcwall`; the code returns `IfcWall` (the first character of the class body is
upper-cased).  Moreover the blank string `" "` is a non-empty class string whose
rendering is empty, not `Ifc`-prefixed. -/
theorem formatIfcClass_wall_ne_claimed :
    formatIfcClass (normalizeIfcClass "wall") = "IfcWall" ∧
    formatIfcClass (normalizeIfcClass "wall") ≠ "Ifcwall" ∧
    (" " : String) ≠ "" ∧ formatIfcClass (normalizeIfcClass " ") = "" := by
  refine ⟨by decide, by decide, by decide, by decide⟩

/-- C6 (amended): for every class string that is non-empty after trimming,
`formatIfcClass (normalizeIfcClass x)` yields an `Ifc`-prefixed mixed-case
rendering; in particular `normalizeIfcClass "wall" = "IFCWALL"` and
`formatIfcClass "IFCWALL" = "IfcWall"` (not `Ifcwall` as the spec sentence has it). -/
theorem formatIfcClass_normalizeIfcClass_shape (x : String) (hx : jsTrim x ≠ "") :
    jsStartsWith (formatIfcClass (normalizeIfcClass x)) "Ifc" = true ∧
    normalizeIfcClass "wall" = "IFCWALL" ∧
    formatIfcClass "IFCWALL" = "IfcWall" := by
  refine ⟨?_, by decide, by decide⟩
  have hne : normalizeIfcClass x ≠ "" := by
    unfold normalizeIfcClass
    intro hcontra
    have hcls : jsToUpper (jsTrim x) ≠ "" := by
      intro hup
      apply hx
      apply string_eq_of_data
      have : (jsTrim x).data.map Char.toUpper = [] := congrArg String.data hup
      have := List.map_eq_nil_iff.mp this
      rw [this]
    rw [if_neg hcls] at hcontra
    by_cases hpre : jsStartsWith (jsToUpper (jsTrim x)) "IFC" = false
    · rw [if_pos hpre] at hcontra
      have : ("IFC" ++ jsToUpper (jsTrim x)).data = [] := congrArg String.data hcontra
      rw [String.data_append] at this
      simp at this
    · rw [if_neg hpre] at hcontra
      exact hcls hcontra
  obtain ⟨-, -, h3⟩ := normalizeIfcClass_canon x hne
  unfold formatIfcClass
  rw [if_neg (by rw [h3]; simp [hne])]
  show "Ifc".data.isPrefixOf ("Ifc" ++ _).data = true
  rw [String.data_append]
  exact isPrefixOf_append_self _ _

/-- C6 witness: the amended theorem applied at the concrete input `wall`. -/
theorem formatIfcClass_normalizeIfcClass_shape_witness :
    jsTrim "wall" ≠ "" ∧
    jsStartsWith (formatIfcClass (normalizeIfcClass "wall")) "Ifc" = true :=
  ⟨by decide, (formatIfcClass_normalizeIfcClass_shape "wall" (by decide)).1⟩

/-! ## Claim C4 -/

/-- A stub oracle pair for concrete evaluations (a regex engine that
rejects every pattern and a parse that always yields `NaN`). -/
def oracleStub : Oracles := { rx := fun _ => none, pf := fun _ => none }

/-- C4: an absent constraint matches every actual value; a `simpleValue`
constraint with the empty string as value matches exactly the present actual
values; a `simpleValue` constraint with a non-empty value matches exactly the
present actual values equal to it under the case-insensitive comparison. -/
theorem matchesConstraint_simpleValue_spec (o : Oracles) :
    (∀ actual : Option String, matchesConstraint o none actual = true) ∧
    (∀ (rv : Option IDSRestriction) (actual : Option String),
      matchesConstraint o
        (some { type := ConstraintKind.simpleValue, value := some "", restriction := rv })
        actual = actual.isSome) ∧
    (∀ (v : String) (rv : Option IDSRestriction) (actual : Option String), v ≠ "" →
      (matchesConstraint o
          (some { type := ConstraintKind.simpleValue, value := some v, restriction := rv })
          actual = true
        ↔ ∃ a, actual = some a ∧ jsToUpper a = jsToUpper v)) := by
  refine ⟨fun _ => rfl, fun rv actual => ?_, fun v rv actual hv => ?_⟩
  · show (if optTruthy (some "") = false then actual.isSome
      else Option.map jsToUpper actual == Option.map jsToUpper (some "")) = actual.isSome
    rw [if_pos (by decide)]
  · have hvt : ¬(optTruthy (some v) = false) := by
      simp [optTruthy]
      intro h
      exact absurd h hv
    show (if optTruthy (some v) = false then actual.isSome
      else Option.map jsToUpper actual == Option.map jsToUpper (some v)) = true
      ↔ ∃ a, actual = some a ∧ jsToUpper a = jsToUpper v
    rw [if_neg hvt]
    cases actual with
    | none => simp
    | some a =>
      show (some (jsToUpper a) == some (jsToUpper v)) = true
        ↔ ∃ b, some a = some b ∧ jsToUpper b = jsToUpper v
      rw [beq_iff_eq]
      simp only [Option.some.injEq]
      constructor
      · intro h
        exact ⟨a, rfl, h⟩
      · rintro ⟨b, hb, h⟩
        rw [hb]
        exact h

/-- C4 witness: the three parts applied at concrete inputs; the
case-insensitive part is instantiated at `x` versus `X`. -/
theorem matchesConstraint_simpleValue_spec_witness :
    ("x" : String) ≠ "" ∧
    matchesConstraint oracleStub
      (some { type := ConstraintKind.simpleValue, value := some "x", restriction := none })
      (some "X") = true :=
  ⟨by decide,
    ((matchesConstraint_simpleValue_spec oracleStub).2.2 "x" none (some "X") (by decide)).mpr
      ⟨"X", rfl, by decide⟩⟩


/-! ## Claim C3 -/

/-- Spec-side reading of the string-length facets: all present length
bounds hold (inclusive), as one conjunction. -/
def lengthFacetsOk (r : IDSRestriction) (a : String) : Bool :=
  (match r.minLength with | some m => decide (m ≤ (a.data.length : ℚ)) | none => true) &&
  ((match r.maxLength with | some m => decide ((a.data.length : ℚ) ≤ m) | none => true) &&
   (match r.length with | some m => decide ((a.data.length : ℚ) = m) | none => true))

/-- Spec-side reading of the numeric facets: when the actual value parses
as a number, all present inclusive bounds hold; otherwise they are skipped. -/
def numericFacetsOk (o : Oracles) (r : IDSRestriction) (a : String) : Bool :=
  match o.pf a with
  | some num =>
    (match r.minInclusive with | some m => decide (m ≤ num) | none => true) &&
    (match r.maxInclusive with | some m => decide (num ≤ m) | none => true)
  | none => true

theorem if_bool_then_false (b : Bool) (X : Bool) :
    (if b = true then false else X) = (!b && X) := by
  cases b <;> simp

theorem not_decide_lt (x m : ℚ) : (!decide (x < m)) = decide (m ≤ x) := by
  rw [← decide_not]
  simp [not_lt]

theorem not_decide_gt (x m : ℚ) : (!decide (x > m)) = decide (x ≤ m) := by
  rw [← decide_not]
  simp [not_lt]

theorem not_decide_ne (x m : ℚ) : (!decide (¬(x = m))) = decide (x = m) := by
  rw [← decide_not]
  simp

/-- The early-return chain over the numeric facets equals `numericFacetsOk`. -/
theorem numericChain_eq (o : Oracles) (r : IDSRestriction) (a : String) :
    (match o.pf a with
     | some num =>
       if (match r.minInclusive with
           | some m => decide (num < m)
           | none => false) = true then false
       else if (match r.maxInclusive with
           | some m => decide (num > m)
           | none => false) = true then false
       else true
     | none => true) = numericFacetsOk o r a := by
  unfold numericFacetsOk
  cases o.pf a with
  | none => rfl
  | some num =>
    dsimp only
    rw [if_bool_then_false, if_bool_then_false]
    cases r.minInclusive with
    | none =>
      cases r.maxInclusive with
      | none => rfl
      | some ma => simp [not_decide_gt]
    | some mi =>
      cases r.maxInclusive with
      | none => simp [not_decide_lt]
      | some ma => simp [not_decide_lt, not_decide_gt]

/-- The early-return chain over the length facets equals `lengthFacetsOk`. -/
theorem lengthChain_eq (r : IDSRestriction) (a : String) (M : Bool) :
    (if (match r.minLength with
        | some m => decide ((a.data.length : ℚ) < m)
        | none => false) = true then false
     else if (match r.maxLength with
        | some m => decide ((a.data.length : ℚ) > m)
        | none => false) = true then false
     else if (match r.length with
        | some m => decide (¬((a.data.length : ℚ) = m))
        | none => false) = true then false
     else M) = (lengthFacetsOk r a && M) := by
  unfold lengthFacetsOk
  rw [if_bool_then_false, if_bool_then_false, if_bool_then_false]
  cases r.minLength with
  | none =>
    cases r.maxLength with
    | none =>
      cases r.length with
      | none => simp
      | some ml => simp [not_decide_ne]
    | some mx =>
      cases r.length with
      | none => simp [not_decide_gt]
      | some ml => simp [not_decide_gt, not_decide_ne, Bool.and_assoc]
  | some mn =>
    cases r.maxLength with
    | none =>
      cases r.length with
      | none => simp [not_decide_lt]
      | some ml => simp [not_decide_lt, not_decide_ne, Bool.and_assoc]
    | some mx =>
      cases r.length with
      | none => simp [not_decide_lt, not_decide_gt, Bool.and_assoc]
      | some ml => simp [not_decide_lt, not_decide_gt, not_decide_ne, Bool.and_assoc]

/-- C3 counterexample: the claim has every present pattern facet tested first
as a regular expression, and `""` is a valid regular expression matching every
string (the regex oracle below reflects this, answering `true` on `B`); yet
the code treats an empty pattern text as falsy, skips the pattern facet and
falls through to the enumeration, which rejects `B`. -/
theorem matchesConstraint_empty_pattern_skipped :
    ((({ rx := fun _ => some (fun _ => true), pf := fun _ => none } : Oracles).rx "").map
        (fun t => t "B")) = some true ∧
    matchesConstraint { rx := fun _ => some (fun _ => true), pf := fun _ => none }
      (some { type := ConstraintKind.restriction,
              restriction := some { pattern := some "", enumeration := some ["A"] } })
      (some "B") = false := by
  exact ⟨rfl, by decide⟩

/-- C3 (amended): for a restriction constraint, an absent actual value never
matches; a present non-empty pattern is tested first (as a regular expression
through the regex oracle, falling back to a substring test when the oracle
rejects the pattern) and alone decides the outcome; otherwise a present
enumeration alone decides, by case-insensitive membership; otherwise the
result is the conjunction of the inclusive string-length bounds and — only
when the actual value parses as a number — the inclusive numeric bounds.
An empty pattern string is skipped as though the pattern facet were absent. -/
theorem matchesConstraint_restriction_order (o : Oracles) (v : Option String)
    (r : IDSRestriction) :
    (matchesConstraint o
        (some { type := ConstraintKind.restriction, value := v, restriction := some r })
        none = false) ∧
    (∀ a p, r.pattern = some p → p ≠ "" →
      matchesConstraint o
          (some { type := ConstraintKind.restriction, value := v, restriction := some r })
          (some a)
        = (match o.rx p with | some test => test a | none => strIncludes a p)) ∧
    (∀ a es, (r.pattern = none ∨ r.pattern = some "") → r.enumeration = some es →
      matchesConstraint o
          (some { type := ConstraintKind.restriction, value := v, restriction := some r })
          (some a)
        = es.any (fun e => jsToUpper e == jsToUpper a)) ∧
    (∀ a, (r.pattern = none ∨ r.pattern = some "") → r.enumeration = none →
      matchesConstraint o
          (some { type := ConstraintKind.restriction, value := v, restriction := some r })
          (some a)
        = (lengthFacetsOk r a && numericFacetsOk o r a)) := by
  have hshow : ∀ a : String,
      matchesConstraint o
          (some { type := ConstraintKind.restriction, value := v, restriction := some r })
          (some a)
        = (if optTruthy r.pattern = true then
            match o.rx (r.pattern.getD "") with
            | some test => test a
            | none => strIncludes a (r.pattern.getD "")
          else if r.enumeration.isSome = true then
            (r.enumeration.getD []).any (fun e => jsToUpper e == jsToUpper a)
          else if (match r.minLength with
              | some m => decide ((a.data.length : ℚ) < m)
              | none => false) = true then false
          else if (match r.maxLength with
              | some m => decide ((a.data.length : ℚ) > m)
              | none => false) = true then false
          else if (match r.length with
              | some m => decide (¬((a.data.length : ℚ) = m))
              | none => false) = true then false
          else
            match o.pf a with
            | some num =>
              if (match r.minInclusive with
                  | some m => decide (num < m)
                  | none => false) = true then false
              else if (match r.maxInclusive with
                  | some m => decide (num > m)
                  | none => false) = true then false
              else true
            | none => true) := fun a => rfl
  refine ⟨rfl, fun a p hp hpne => ?_, fun a es hpat henum => ?_, fun a hpat henum => ?_⟩
  · rw [hshow, hp]
    rw [if_pos (by simp [optTruthy, hpne])]
    rfl
  · have hfalse : ¬(optTruthy r.pattern = true) := by
      cases hpat with
      | inl h => rw [h]; decide
      | inr h => rw [h]; decide
    rw [hshow, if_neg hfalse, henum,
      if_pos (show (some es).isSome = true from rfl)]
    rfl
  · have hfalse : ¬(optTruthy r.pattern = true) := by
      cases hpat with
      | inl h => rw [h]; decide
      | inr h => rw [h]; decide
    rw [hshow, if_neg hfalse, henum, if_neg (by decide)]
    rw [lengthChain_eq, numericChain_eq]

/-- C3 witness: the amended theorem applied at a concrete restriction with a
non-empty pattern that the stub regex oracle rejects, so the substring
fallback decides. -/
theorem matchesConstraint_restriction_order_witness :
    ({ pattern := some "BC" : IDSRestriction }.pattern = some "BC") ∧ ("BC" : String) ≠ "" ∧
    matchesConstraint oracleStub
      (some { type := ConstraintKind.restriction, value := none,
              restriction := some { pattern := some "BC" } })
      (some "ABCD") = true := by
  refine ⟨rfl, by decide, ?_⟩
  rw [(matchesConstraint_restriction_order oracleStub none { pattern := some "BC" }).2.1
    "ABCD" "BC" rfl (by decide)]
  decide

/-! ## Claim C2 -/

/-- C2 counterexample: the claim allows the optional pass only when
`minOccurs` is explicitly `0`; the code relaxes the requirement for every
explicitly non-positive lower bound, so a property facet with
`minOccurs = -1` and a missing property passes as optional instead of
failing. -/
theorem checkRequirement_negative_minOccurs_counterexample :
    ({ type := IDSFacetType.property,
       propertySet := some { type := ConstraintKind.simpleValue, value := some "PS" },
       baseName := some { type := ConstraintKind.simpleValue, value := some "PN" },
       minOccurs := some (-1) : IDSFacet }.minOccurs ≠ some (0 : ℚ)) ∧
    checkRequirement oracleStub
      { id := "o", name := "o", ifcClass := "IFCWALL", attributes := [],
        properties := [], materials := [], classifications := [] }
      { id := "r", type := IDSFacetType.property,
        facet := { type := IDSFacetType.property,
                   propertySet := some { type := ConstraintKind.simpleValue, value := some "PS" },
                   baseName := some { type := ConstraintKind.simpleValue, value := some "PN" },
                   minOccurs := some (-1) } }
      = { pass := true, message := "OK (optionnel)" } := by
  exact ⟨by decide, by decide⟩

/-- C2 (amended): a property requirement whose resolved set/key names a
property absent from the object fails with the French missing-property
message unless `minOccurs` is explicitly present and non-positive (in
particular `0`), in which case it passes as optional; a material
requirement on an object with no materials behaves the same way with the
no-material message; an attribute requirement whose resolved attribute
name is absent always fails, with no optional relaxation. -/
theorem checkRequirement_missing_behavior (o : Oracles) (obj : IFCObject)
    (req : IDSRequirement) :
    (req.facet.type = IDSFacetType.property →
      ∀ ps pn, resolveName req.facet.propertySet = ps → resolveName req.facet.baseName = pn →
      ps ≠ "" → pn ≠ "" →
      (lookupStr obj.properties ps).bind (fun m => lookupStr m pn) = none →
      ((∀ q, req.facet.minOccurs = some q → 0 < q) →
        checkRequirement o obj req =
          { pass := false, message := "Propriété '" ++ ps ++ "." ++ pn ++ "' manquante" }) ∧
      (∀ q, req.facet.minOccurs = some q → q ≤ 0 →
        checkRequirement o obj req = { pass := true, message := "OK (optionnel)" })) ∧
    (req.facet.type = IDSFacetType.material → obj.materials = [] →
      ((∀ q, req.facet.minOccurs = some q → 0 < q) →
        checkRequirement o obj req =
          { pass := false, message := "Aucun matériau assigné" }) ∧
      (∀ q, req.facet.minOccurs = some q → q ≤ 0 →
        checkRequirement o obj req = { pass := true, message := "OK (optionnel)" })) ∧
    (req.facet.type = IDSFacetType.attrib →
      ∀ an, resolveName req.facet.attributeName = an → an ≠ "" →
      lookupStr obj.attributes an = none →
      checkRequirement o obj req =
        { pass := false, message := "Attribut '" ++ an ++ "' manquant" }) := by
  refine ⟨fun hty ps pn hps hpn hpsne hpnne hlook => ?_,
          fun hty hmat => ?_,
          fun hty an han hanne hlook => ?_⟩
  · have hred : checkRequirement o obj req =
        (if resolveName req.facet.propertySet = "" ∨ resolveName req.facet.baseName = "" then
          { pass := true, message := "OK" }
        else
          match (lookupStr obj.properties (resolveName req.facet.propertySet)).bind
              (fun m => lookupStr m (resolveName req.facet.baseName)) with
          | none =>
            let mustExist := match req.facet.minOccurs with
              | some q => decide (q > 0)
              | none => true
            if mustExist then
              { pass := false, message := "Propriété '" ++ resolveName req.facet.propertySet
                  ++ "." ++ resolveName req.facet.baseName ++ "' manquante" }
            else
              { pass := true, message := "OK (optionnel)" }
          | some actual =>
            if req.facet.value.isSome ∧ matchesConstraint o req.facet.value (some actual) = false
            then
              { pass := false, message := "'" ++ resolveName req.facet.propertySet ++ "."
                  ++ resolveName req.facet.baseName ++ "' = '" ++ actual
                  ++ "' — attendu : " ++ constraintDisplayVal req.facet.value }
            else
              { pass := true, message := "OK" }) := by
      unfold checkRequirement
      rw [hty]
    rw [hps, hpn] at hred
    rw [hred, if_neg (by tauto), hlook]
    constructor
    · intro hmust
      cases hq : req.facet.minOccurs with
      | none => rfl
      | some q =>
        have := hmust q hq
        show (if decide (q > 0) = true then _ else _) = _
        rw [if_pos (by rw [decide_eq_true_eq]; exact this)]
    · intro q hq hle
      cases hq2 : req.facet.minOccurs with
      | none => rw [hq2] at hq; exact absurd hq (by simp)
      | some q2 =>
        rw [hq2] at hq
        have hqq : q2 = q := by injection hq
        show (if decide (q2 > 0) = true then _ else _) = _
        rw [if_neg (by rw [decide_eq_true_eq]; rw [hqq]; exact not_lt.mpr hle)]
  · have hred : checkRequirement o obj req =
        (if obj.materials.length = 0 then
          let mustExist := match req.facet.minOccurs with
            | some q => decide (q > 0)
            | none => true
          if mustExist then
            { pass := false, message := "Aucun matériau assigné" }
          else
            { pass := true, message := "OK (optionnel)" }
        else
          if req.facet.value.isSome then
            if (obj.materials.any
                (fun m => matchesConstraint o req.facet.value (some m))) = false then
              { pass := false, message := "Matériau '" ++ jsJoin ", " obj.materials
                  ++ "' ne correspond pas à '" ++ constraintDisplayVal req.facet.value ++ "'" }
            else
              { pass := true, message := "OK" }
          else
            { pass := true, message := "OK" }) := by
      unfold checkRequirement
      rw [hty]
    rw [hred, if_pos (by rw [hmat]; rfl)]
    constructor
    · intro hmust
      cases hq : req.facet.minOccurs with
      | none => rfl
      | some q =>
        have := hmust q hq
        show (if decide (q > 0) = true then _ else _) = _
        rw [if_pos (by rw [decide_eq_true_eq]; exact this)]
    · intro q hq hle
      cases hq2 : req.facet.minOccurs with
      | none => rw [hq2] at hq; exact absurd hq (by simp)
      | some q2 =>
        rw [hq2] at hq
        have hqq : q2 = q := by injection hq
        show (if decide (q2 > 0) = true then _ else _) = _
        rw [if_neg (by rw [decide_eq_true_eq]; rw [hqq]; exact not_lt.mpr hle)]
  · have hred : checkRequirement o obj req =
        (if resolveName req.facet.attributeName = "" then { pass := true, message := "OK" }
        else
          match lookupStr obj.attributes (resolveName req.facet.attributeName) with
          | none =>
            { pass := false,
              message := "Attribut '" ++ resolveName req.facet.attributeName ++ "' manquant" }
          | some actual =>
            if req.facet.value.isSome ∧ matchesConstraint o req.facet.value (some actual) = false
            then
              { pass := false, message := "'" ++ resolveName req.facet.attributeName ++ "' = '"
                  ++ actual ++ "' — attendu : " ++ constraintDisplayVal req.facet.value }
            else
              { pass := true, message := "OK" }) := by
      unfold checkRequirement
      rw [hty]
    rw [han] at hred
    rw [hred, if_neg hanne, hlook]

/-- C2 witness: the amended theorem applied to a concrete object lacking the
requested property, with a default (absent) occurrence bound. -/
theorem checkRequirement_missing_behavior_witness :
    checkRequirement oracleStub
      { id := "o", name := "o", ifcClass := "IFCWALL", attributes := [],
        properties := [], materials := [], classifications := [] }
      { id := "r", type := IDSFacetType.property,
        facet := { type := IDSFacetType.property,
                   propertySet := some { type := ConstraintKind.simpleValue, value := some "PS" },
                   baseName := some { type := ConstraintKind.simpleValue, value := some "PN" } } }
      = { pass := false, message := "Propriété 'PS.PN' manquante" } := by
  have h := (checkRequirement_missing_behavior oracleStub
    { id := "o", name := "o", ifcClass := "IFCWALL", attributes := [],
      properties := [], materials := [], classifications := [] }
    { id := "r", type := IDSFacetType.property,
      facet := { type := IDSFacetType.property,
                 propertySet := some { type := ConstraintKind.simpleValue, value := some "PS" },
                 baseName := some { type := ConstraintKind.simpleValue, value := some "PN" } } }).1
    rfl "PS" "PN" (by decide) (by decide) (by decide) (by decide) (by decide)
  have h2 := h.1 (by intro q hq; simp at hq)
  exact h2

/-! ## Claim C10 -/

theorem head?_string_append {a : String} (b : String) {c : Char}
    (h : a.data.head? = some c) : (a ++ b).data.head? = some c := by
  rw [String.data_append]
  cases ha : a.data with
  | nil => rw [ha] at h; simp at h
  | cons x t =>
    rw [ha] at h
    simp only [List.head?_cons] at h
    rw [List.cons_append]
    simpa using h

/-- Every `checkRequirement` outcome either passes or carries a message whose
first character is not `O` (it is `P`, `A`, `C`, `M` or a quote). -/
theorem checkRequirement_ok_or_head (o : Oracles) (obj : IFCObject) (req : IDSRequirement) :
    (checkRequirement o obj req).pass = true ∨
    ∃ c, (checkRequirement o obj req).message.data.head? = some c ∧ c ≠ 'O' := by
  unfold checkRequirement
  cases req.facet.type <;> dsimp only <;> repeat' split
  all_goals
    solve
      | exact Or.inl rfl
      | (refine Or.inr ⟨'P', ?_, by decide⟩; repeat first | decide | apply head?_string_append)
      | (refine Or.inr ⟨'\'', ?_, by decide⟩; repeat first | decide | apply head?_string_append)
      | (refine Or.inr ⟨'A', ?_, by decide⟩; repeat first | decide | apply head?_string_append)
      | (refine Or.inr ⟨'C', ?_, by decide⟩; repeat first | decide | apply head?_string_append)
      | (refine Or.inr ⟨'M', ?_, by decide⟩; repeat first | decide | apply head?_string_append)

/-- Every message collected from a failing requirement starts with a
character other than `O`. -/
theorem collectReqResults_msgs_head (o : Oracles) (obj : IFCObject)
    (reqs : List IDSRequirement) :
    ∀ m ∈ (collectReqResults o obj reqs).2, ∃ c, m.data.head? = some c ∧ c ≠ 'O' := by
  induction reqs with
  | nil => intro m hm; simp [collectReqResults] at hm
  | cons req rest ih =>
    intro m hm
    unfold collectReqResults at hm
    dsimp only at hm
    by_cases hp : (checkRequirement o obj req).pass
    · rw [if_pos hp] at hm
      exact ih m hm
    · rw [if_neg hp] at hm
      rcases List.mem_cons.mp hm with hme | hmr
      · rw [hme]
        cases checkRequirement_ok_or_head o obj req with
        | inl h => exact absurd h hp
        | inr h => exact h
      · exact ih m hmr

/-- When the running conjunction over the requirements is false, at least
one failing message was collected. -/
theorem collectReqResults_false_ne_nil (o : Oracles) (obj : IFCObject)
    (reqs : List IDSRequirement) :
    (collectReqResults o obj reqs).1 = false → (collectReqResults o obj reqs).2 ≠ [] := by
  induction reqs with
  | nil => intro h; simp [collectReqResults] at h
  | cons req rest ih =>
    intro h
    unfold collectReqResults at h ⊢
    dsimp only at h ⊢
    by_cases hp : (checkRequirement o obj req).pass
    · rw [if_pos hp]
      rw [hp] at h
      simp only [Bool.true_and] at h
      exact ih h
    · rw [if_neg hp]
      simp

/-- The head character of a non-empty semicolon join of messages is the head
character of the first message. -/
theorem jsJoin_head_ne (l : List String)
    (h : ∀ m ∈ l, ∃ c, m.data.head? = some c ∧ c ≠ 'O') (hne : l ≠ []) :
    ∃ c, (jsJoin " ; " l).data.head? = some c ∧ c ≠ 'O' := by
  cases l with
  | nil => exact absurd rfl hne
  | cons m rest =>
    obtain ⟨c, hc, hcn⟩ := h m (List.mem_cons_self _ _)
    cases rest with
    | nil => exact ⟨c, hc, hcn⟩
    | cons m2 r2 =>
      refine ⟨c, ?_, hcn⟩
      show ((m ++ " ; ") ++ jsJoin " ; " (m2 :: r2)).data.head? = some c
      apply head?_string_append
      apply head?_string_append
      exact hc

/-- Pass and fail counts over a detail list sum to its length. -/
theorem count_pass_add_fail (details : List IDSValidationDetail) :
    (details.filter (fun d => d.status == Status.pass)).length
      + (details.filter (fun d => d.status == Status.fail)).length = details.length := by
  induction details with
  | nil => rfl
  | cons d t ih =>
    rw [List.filter_cons, List.filter_cons]
    cases hd : d.status
    · rw [if_pos (by decide), if_neg (by decide)]
      simp only [List.length_cons]
      omega
    · rw [if_neg (by decide), if_pos (by decide)]
      simp only [List.length_cons]
      omega

/-- C10: every result produced by `validateIDS` satisfies
`passed + failed = totalChecked`, `totalChecked = details.length`, and a
detail passes exactly when its message is the literal `OK`. -/
theorem validateIDS_result_invariants (o : Oracles) (idsFile : IDSFile)
    (objects : List IFCObject) :
    ((validateIDS o idsFile objects).1).all (fun r =>
      (r.passed + r.failed == r.totalChecked) &&
      (r.totalChecked == r.details.length) &&
      r.details.all (fun d => (d.status == Status.pass) == (d.message == "OK"))) = true := by
  have hspec : ∀ spec,
      (((validateSpecification o spec objects).passed
          + (validateSpecification o spec objects).failed
        == (validateSpecification o spec objects).totalChecked) &&
      (((validateSpecification o spec objects).totalChecked
        == (validateSpecification o spec objects).details.length) &&
      ((validateSpecification o spec objects).details.all
        (fun d => (d.status == Status.pass) == (d.message == "OK"))))) = true := by
    intro spec
    unfold validateSpecification
    dsimp only
    rw [Bool.and_eq_true, Bool.and_eq_true]
    refine ⟨?_, ?_, ?_⟩
    · rw [beq_iff_eq]
      exact count_pass_add_fail _
    · rw [beq_iff_eq, List.length_map]
    · rw [List.all_eq_true]
      intro d hd
      obtain ⟨obj, hobj, rfl⟩ := List.mem_map.mp hd
      dsimp only
      by_cases hacc : (collectReqResults o obj spec.requirements).1
      · rw [if_pos hacc, if_pos hacc]
        rfl
      · rw [if_neg hacc, if_neg hacc]
        have hne := collectReqResults_false_ne_nil o obj spec.requirements
          (Bool.eq_false_iff.mpr hacc)
        obtain ⟨c, hc, hcn⟩ :=
          jsJoin_head_ne _ (collectReqResults_msgs_head o obj spec.requirements) hne
        have hmsg : (jsJoin " ; " (collectReqResults o obj spec.requirements).2 == "OK")
            = false := by
          rw [beq_eq_false_iff_ne]
          intro hEq
          rw [hEq] at hc
          have hco : c = 'O' := by
            have hok : ("OK" : String).data.head? = some 'O' := by decide
            rw [hok] at hc
            injection hc with h2
            exact h2.symm
          exact hcn hco
        rw [hmsg]
        rfl
  have hres : (validateIDS o idsFile objects).1
      = idsFile.specifications.map (fun s => validateSpecification o s objects) := by
    unfold validateIDS
    generalize 0 = si
    generalize idsFile.specifications.length = total
    induction idsFile.specifications generalizing si with
    | nil => rfl
    | cons s rest ih =>
      unfold validateIDSGo
      dsimp only
      rw [List.map_cons]
      rw [← ih (si + 1)]
  rw [hres, List.all_eq_true]
  intro r hr
  obtain ⟨spec, hmem, rfl⟩ := List.mem_map.mp hr
  have h := hspec spec
  simp only [Bool.and_eq_true] at h ⊢
  tauto

/-! ## Claim C1 -/

/-- The results of the specification loop, in file order. -/
theorem validateIDSGo_results (o : Oracles) (objects : List IFCObject) (total : ℕ) :
    ∀ (specs : List IDSSpecification) (si : ℕ),
      (validateIDSGo o objects total specs si).1
        = specs.map (fun s => validateSpecification o s objects) := by
  intro specs
  induction specs with
  | nil => intro si; rfl
  | cons s rest ih =>
    intro si
    unfold validateIDSGo
    dsimp only
    rw [ih (si + 1)]
    rfl

/-- The percentages handed to the progress callback by the loop. -/
theorem validateIDSGo_progress (o : Oracles) (objects : List IFCObject) (total : ℕ) :
    ∀ (specs : List IDSSpecification) (si : ℕ),
      (validateIDSGo o objects total specs si).2
        = (List.range specs.length).map
            (fun k => jsRound ((((si + k : ℕ) : ℚ) + 1) / (total : ℚ) * 100)) := by
  intro specs
  induction specs with
  | nil => intro si; rfl
  | cons s rest ih =>
    intro si
    unfold validateIDSGo
    dsimp only
    rw [ih (si + 1)]
    rw [List.length_cons, List.range_succ_eq_map]
    rw [List.map_cons, List.map_map, Nat.add_zero]
    congr 1
    apply List.map_congr_left
    intro k hk
    simp only [Function.comp_apply]
    rw [show si + 1 + k = si + k.succ from by omega]

/-- C1: a completed `validateIDS` run returns one result per specification in
file order, invokes the progress callback exactly once per specification, the
reported rounded percentages are non-decreasing, and the last reported
percentage is 100 (no call is made for a file without specifications). -/
theorem validateIDS_progress_contract (o : Oracles) (idsFile : IDSFile)
    (objects : List IFCObject) :
    (validateIDS o idsFile objects).1
      = idsFile.specifications.map (fun s => validateSpecification o s objects) ∧
    (validateIDS o idsFile objects).2.length = idsFile.specifications.length ∧
    List.Chain' (fun a b => a ≤ b) (validateIDS o idsFile objects).2 ∧
    (validateIDS o idsFile objects).2.getLast?
      = (if idsFile.specifications.length = 0 then none else some 100) := by
  have hsnd : (validateIDS o idsFile objects).2
      = (List.range idsFile.specifications.length).map
          (fun k => jsRound ((((0 + k : ℕ) : ℚ) + 1)
            / ((idsFile.specifications.length : ℕ) : ℚ) * 100)) :=
    validateIDSGo_progress o objects idsFile.specifications.length idsFile.specifications 0
  refine ⟨validateIDSGo_results o objects idsFile.specifications.length
    idsFile.specifications 0, ?_, ?_, ?_⟩
  · rw [hsnd, List.length_map, List.length_range]
  · rw [hsnd]
    rw [List.chain'_map]
    cases hN : idsFile.specifications.length with
    | zero => simp
    | succ n =>
      rw [List.chain'_range_succ]
      intro m hm
      have hNpos : (0 : ℚ) < ((n + 1 : ℕ) : ℚ) := by
        exact_mod_cast Nat.succ_pos n
      unfold jsRound
      apply Int.floor_le_floor
      have hdiv : (((0 + m : ℕ) : ℚ) + 1) / ((n + 1 : ℕ) : ℚ)
          ≤ (((0 + (m + 1) : ℕ) : ℚ) + 1) / ((n + 1 : ℕ) : ℚ) := by
        rw [div_le_div_iff_of_pos_right hNpos]
        push_cast
        linarith
      have := mul_le_mul_of_nonneg_right hdiv (by norm_num : (0 : ℚ) ≤ 100)
      linarith
  · rw [hsnd]
    cases hN : idsFile.specifications.length with
    | zero => simp
    | succ n =>
      rw [if_neg (Nat.succ_ne_zero n), List.range_succ, List.map_append]
      simp only [List.map_cons, List.map_nil]
      rw [List.getLast?_concat]
      have harg : (((0 + n : ℕ) : ℚ) + 1) / ((n + 1 : ℕ) : ℚ) * 100 = 100 := by
        have hne : ((n + 1 : ℕ) : ℚ) ≠ 0 := by
          exact_mod_cast Nat.succ_ne_zero n
        have : (((0 + n : ℕ) : ℚ) + 1) = ((n + 1 : ℕ) : ℚ) := by
          push_cast
          ring
        rw [this, div_self hne, one_mul]
      rw [harg]
      have hjr : jsRound 100 = 100 := by
        unfold jsRound
        rw [Int.floor_eq_iff]
        norm_num
      rw [hjr]

/-! ## Claim C5 -/

/-- C5: the CSV summary line reports a pass rate of
`round(100 × passed / checked)` and `0` when nothing was checked, the
detail table is the concatenation of each result's rows, and a result
with an empty detail list contributes exactly one row, with empty object
columns, Status `N/A` and the fixed no-object-found message. -/
theorem exportValidationCSV_summary_and_na_row (results : List IDSValidationResult)
    (idsFile : IDSFile) (today : String) :
    (exportValidationCSVLines results idsFile today).get? 11
      = some ("Taux de conformité;"
          ++ toString (if sumTotalChecked results = 0 then (0 : ℤ)
              else jsRound (100 * (sumPassed results : ℚ) / (sumTotalChecked results : ℚ)))
          ++ "%") ∧
    (exportValidationCSVLines results idsFile today).drop 14 = results.flatMap csvDetailRows ∧
    (∀ r : IDSValidationResult, r.details = [] →
      csvDetailRows r = [jsJoin ";" [escapeCSV r.specificationName, escapeCSV r.ifcEntity,
        "", "", "N/A", "Aucun objet trouvé pour cette spécification"]]) := by
  refine ⟨?_, rfl, ?_⟩
  · show some ("Taux de conformité;"
        ++ toString (if sumTotalChecked results > 0
            then jsRound (((sumPassed results : ℚ) / (sumTotalChecked results : ℚ)) * 100)
            else 0)
        ++ "%") = _
    have hrate : (if sumTotalChecked results > 0
          then jsRound (((sumPassed results : ℚ) / (sumTotalChecked results : ℚ)) * 100)
          else 0)
        = (if sumTotalChecked results = 0 then (0 : ℤ)
          else jsRound (100 * (sumPassed results : ℚ) / (sumTotalChecked results : ℚ))) := by
      by_cases h : sumTotalChecked results = 0
      · rw [if_neg (by omega), if_pos h]
      · rw [if_pos (by omega), if_neg h]
        congr 1
        ring
    rw [hrate]
  · intro r hr
    unfold csvDetailRows
    rw [if_pos (by rw [hr]; rfl)]
    have h1 : escapeCSV "" = "" := by decide
    have h2 : escapeCSV "N/A" = "N/A" := by decide
    have h3 : escapeCSV "Aucun objet trouvé pour cette spécification"
        = "Aucun objet trouvé pour cette spécification" := by decide
    rw [List.map_cons, List.map_cons, List.map_cons, List.map_cons, List.map_cons,
      List.map_cons, List.map_nil, h1, h2, h3]

/-- A concrete result with no details, for the C5 witness. -/
def resNA : IDSValidationResult :=
  { specificationId := "s", specificationName := "Spec A", ifcEntity := "IFCWALL",
    totalChecked := 0, passed := 0, failed := 0, details := [] }

/-- A concrete result with one passing and one failing check, for the C5 witness. -/
def resHalf : IDSValidationResult :=
  { specificationId := "s", specificationName := "Spec A", ifcEntity := "IFCWALL",
    totalChecked := 2, passed := 1, failed := 1, details := [] }

/-- A concrete file record, for the C5 witness. -/
def fileStub : IDSFile :=
  { id := "f", name := "File", specifications := [], isBuiltIn := false }

/-- C5 witness: the N/A-row part applied to a concrete empty result, and the
summary line of a concrete report with one passing and one failing check. -/
theorem exportValidationCSV_summary_and_na_row_witness :
    csvDetailRows resNA
      = ["Spec A;IFCWALL;;;N/A;Aucun objet trouvé pour cette spécification"] ∧
    (exportValidationCSVLines [resHalf] fileStub "2026-10-11").get? 11
      = some "Taux de conformité;50%" := by
  constructor
  · rw [(exportValidationCSV_summary_and_na_row [] fileStub "").2.2 resNA rfl]
    decide
  · rw [(exportValidationCSV_summary_and_na_row [resHalf] fileStub "2026-10-11").1]
    have h50 : (if sumTotalChecked [resHalf] = 0 then (0 : ℤ)
        else jsRound (100 * (sumPassed [resHalf] : ℚ) / (sumTotalChecked [resHalf] : ℚ)))
        = 50 := by
      rw [if_neg (by decide)]
      have hp : sumPassed [resHalf] = 1 := rfl
      have hc : sumTotalChecked [resHalf] = 2 := rfl
      rw [hp, hc]
      unfold jsRound
      rw [Int.floor_eq_iff]
      norm_num
    rw [h50]
    decide

/-! ## Claim C7 -/

/-- C7 (amended): the reported total-area and total-volume statistics are
the rounded accumulated sums suffixed `m²` / `m³`, with an em-dash
substituted for the number exactly when the accumulated sum is not
strictly positive (the code tests `total > 0`, not `total ≠ 0`). -/
theorem computeModelStatistics_area_volume (o : Oracles) (objects : List IFCObject) :
    ((accumTotals o objects).1 ≤ 0 →
      (areaVolumeStats o objects).get? 0
        = some { name := "Surface totale", value := "— m²", unit := none,
                 icon := some "area" }) ∧
    (0 < (accumTotals o objects).1 →
      (areaVolumeStats o objects).get? 0
        = some { name := "Surface totale",
                 value := toString (jsRound (accumTotals o objects).1) ++ " m²",
                 unit := none, icon := some "area" }) ∧
    ((accumTotals o objects).2 ≤ 0 →
      (areaVolumeStats o objects).get? 1
        = some { name := "Volume total", value := "— m³", unit := none,
                 icon := some "volume" }) ∧
    (0 < (accumTotals o objects).2 →
      (areaVolumeStats o objects).get? 1
        = some { name := "Volume total",
                 value := toString (jsRound (accumTotals o objects).2) ++ " m³",
                 unit := none, icon := some "volume" }) := by
  unfold areaVolumeStats
  dsimp only
  refine ⟨fun h => ?_, fun h => ?_, fun h => ?_, fun h => ?_⟩
  · rw [if_neg (not_lt.mpr h)]
    rw [show ("—" ++ " m²" : String) = "— m²" by decide]
    rfl
  · rw [if_pos h]
    rfl
  · rw [if_neg (not_lt.mpr h)]
    rw [show ("—" ++ " m³" : String) = "— m³" by decide]
    rfl
  · rw [if_pos h]
    rfl

/-- C7 witness: the amended theorem applied to the empty model, whose
accumulated sums are zero, so both statistics show the em-dash. -/
theorem computeModelStatistics_area_volume_witness :
    (accumTotals oracleStub []).1 ≤ 0 ∧
    (areaVolumeStats oracleStub []).get? 0
      = some { name := "Surface totale", value := "— m²", unit := none,
               icon := some "area" } :=
  ⟨by decide, (computeModelStatistics_area_volume oracleStub []).1 (by decide)⟩

/-- A `parseFloat` oracle knowing the literal `-5`, for the C7 counterexample. -/
def pfNeg5 : Oracles := { rx := fun _ => none, pf := fun s => if s = "-5" then some (-5) else none }

/-- An object carrying one negative area property, for the C7 counterexample. -/
def objNegArea : IFCObject :=
  { id := "o", name := "o", ifcClass := "IFCSLAB", attributes := [],
    properties := [("P", [("Area", "-5")])], materials := [], classifications := [] }

/-- C7 counterexample: the claim substitutes the em-dash exactly when the
accumulated sum is exactly zero; here the accumulated area is `-5`, not
zero, yet the report shows the em-dash. -/
theorem computeModelStatistics_negative_area_counterexample :
    (accumTotals pfNeg5 [objNegArea]).1 = -5 ∧ ((-5 : ℚ) ≠ 0) ∧
    (areaVolumeStats pfNeg5 [objNegArea]).get? 0
      = some { name := "Surface totale", value := "— m²", unit := none,
               icon := some "area" } := by
  have h1 : accumTotals pfNeg5 [objNegArea] = ((0 : ℚ) + (-5), (0 : ℚ)) := rfl
  have h2 : ((0 : ℚ) + (-5)) = -5 := by norm_num
  refine ⟨?_, by norm_num, ?_⟩
  · rw [h1, h2]
  · unfold areaVolumeStats
    dsimp only
    have hneg : ¬((accumTotals pfNeg5 [objNegArea]).1 > 0) := by
      rw [h1]
      norm_num
    rw [if_neg hneg]
    rw [show ("—" ++ " m²" : String) = "— m²" by decide]
    rfl

/-! ## Claim C8 -/

/-- C8 counterexample: the claim replaces the parsed title when it equals
the literal placeholder `Untitled`; the code only replaces the parser's
actual placeholder `Sans titre` (and the empty title), so a parsed title
`Untitled` is kept even though the file is named `report.ids`. -/
theorem loadIDSFromFile_untitled_kept :
    (loadIDSFromFile
        { id := "i", name := "Untitled", specifications := [], isBuiltIn := false }
        "report.ids").name = "Untitled" ∧
    stripIdsSuffix "report.ids" = "report" ∧ ("Untitled" : String) ≠ "report" := by
  refine ⟨by decide, by decide, by decide⟩

/-- C8 (amended): the title fix-up of `loadIDSFromFile` replaces the parsed
title with the file name stripped of one case-insensitive `.ids` suffix
exactly when the parsed title is empty or the parser placeholder
`Sans titre` (not the literal `Untitled`); otherwise the parse result is
returned unchanged; the built-in flag of the parse result (false, since the
parser is called with `isBuiltIn = false`) is never altered; and stripping
removes a trailing `.ids` from any file name that ends in it. -/
theorem loadIDSFromFile_title_substitution (parsed : IDSFile) (fileName : String) :
    ((parsed.name = "" ∨ parsed.name = "Sans titre") →
      loadIDSFromFile parsed fileName = { parsed with name := stripIdsSuffix fileName }) ∧
    (parsed.name ≠ "" → parsed.name ≠ "Sans titre" →
      loadIDSFromFile parsed fileName = parsed) ∧
    (loadIDSFromFile parsed fileName).isBuiltIn = parsed.isBuiltIn ∧
    (∀ base : String, stripIdsSuffix (base ++ ".ids") = base) := by
  refine ⟨fun h => ?_, fun h1 h2 => ?_, ?_, fun base => ?_⟩
  · unfold loadIDSFromFile
    rw [if_pos h]
  · unfold loadIDSFromFile
    rw [if_neg (by tauto)]
  · unfold loadIDSFromFile
    by_cases h : parsed.name = "" ∨ parsed.name = "Sans titre"
    · rw [if_pos h]
    · rw [if_neg h]
  · unfold stripIdsSuffix
    have hdata : (base ++ ".ids").data = base.data ++ ".ids".data := String.data_append _ _
    have hlen : (base ++ ".ids").data.length = base.data.length + 4 := by
      rw [hdata, List.length_append]
      rfl
    have hsub : (base ++ ".ids").data.length - 4 = base.data.length := by omega
    rw [hlen]
    rw [if_pos ?hc]
    case hc =>
      refine ⟨by omega, ?_⟩
      have hdrop : (base ++ ".ids").data.drop (base.data.length + 4 - 4) = ".ids".data := by
        rw [hdata, show base.data.length + 4 - 4 = base.data.length from by omega]
        exact List.drop_left base.data ".ids".data
      rw [hdrop]
      decide
    have htake : (base ++ ".ids").data.take (base.data.length + 4 - 4) = base.data := by
      rw [hdata, show base.data.length + 4 - 4 = base.data.length from by omega]
      exact List.take_left base.data ".ids".data
    rw [htake]

/-- C8 witness: the amended theorem applied to a parse result titled with
the parser placeholder and to a user file named `report.ids`. -/
theorem loadIDSFromFile_title_substitution_witness :
    loadIDSFromFile
        { id := "i", name := "Sans titre", specifications := [], isBuiltIn := false }
        "report.ids"
      = { id := "i", name := stripIdsSuffix "report.ids", specifications := [],
          isBuiltIn := false } :=
  (loadIDSFromFile_title_substitution
    { id := "i", name := "Sans titre", specifications := [], isBuiltIn := false }
    "report.ids").1 (Or.inr rfl)
